import Mathlib

/-
Verification of the filename-metadata extraction, schema-normalization and
filtering core of the Galileo decile tracking dashboard (src/Newtest3/app.py).

The Python functions are shallowly embedded as executable Lean definitions:
strings are lists of characters, regular-expression searches are modelled by
explicit leftmost-match scanners with the same semantics as the concrete
patterns used in the source, and pandas DataFrames are modelled positionally
as a list of column names together with a list of rows (lists of cell
values).  Fallible operations (column access that raises KeyError in pandas)
return Except.
-/

namespace Newtest3

/-! ## Character classes (ASCII, as used by the source's regexes) -/

/-- `[a-zA-Z]` of the date regex. -/
def isLetterC (c : Char) : Bool :=
  ('a' ≤ c && c ≤ 'z') || ('A' ≤ c && c ≤ 'Z')

/-- `\d` restricted to ASCII digits. -/
def isDigitC (c : Char) : Bool :=
  '0' ≤ c && c ≤ '9'

/-- `\s` (Python whitespace, ASCII part). -/
def isSpaceC (c : Char) : Bool :=
  c == ' ' || c == '\t' || c == '\n' || c == '\r' || c == '\x0b' || c == '\x0c'

/-- `\w` (word character) restricted to ASCII, for word-boundary matching. -/
def isWordC (c : Char) : Bool :=
  isLetterC c || isDigitC c || c == '_'

/-- Python `str.lower()` on one character (ASCII case fold). -/
def lowerCL (s : String) : List Char :=
  s.toList.map Char.toLower

/-- Numeric value of a digit string, most significant first. -/
def natOfDigits (l : List Char) : Nat :=
  l.foldl (fun n c => n * 10 + (c.toNat - 48)) 0

/-! ## Substring and word-boundary search -/

/-- Whether `pre` is a prefix of `l` (character-wise). -/
def startsWithCL : List Char → List Char → Bool
  | [], _ => true
  | _ :: _, [] => false
  | a :: as, b :: bs => a == b && startsWithCL as bs

/-- Python's `needle in hay` substring test. -/
def hasSubCL (needle : List Char) : List Char → Bool
  | [] => startsWithCL needle []
  | hay@(_ :: rest) => startsWithCL needle hay || hasSubCL needle rest

/-- Word-character test on an optional character (`none` = string edge). -/
def owordC : Option Char → Bool
  | some c => isWordC c
  | none => false

/-- A `\b` word boundary between adjacent (optional) characters. -/
def bdryOk (a b : Option Char) : Bool :=
  owordC a != owordC b

/-- Match `\b kw \b` exactly at the current position, given the previous
character. -/
def wbMatchAt (kw : List Char) (prev : Option Char) (l : List Char) : Bool :=
  startsWithCL kw l && bdryOk prev l.head? &&
    (match kw.getLast? with
     | some lastc => bdryOk (some lastc) ((l.drop kw.length).head?)
     | none => true)

/-- Scan for `\b kw \b` anywhere in the remaining text. -/
def wbScan (kw : List Char) (prev : Option Char) : List Char → Bool
  | [] => wbMatchAt kw prev []
  | l@(c :: rest) => wbMatchAt kw prev l || wbScan kw (some c) rest

/-- `re.search(r'\b' + re.escape(kw) + r'\b', text)` as a Bool. -/
def wbSearch (kw : String) (l : List Char) : Bool :=
  wbScan kw.toList none l

/-! ## Calendar dates (Python `datetime` validity) -/

/-- A calendar date as produced by `datetime(year, month, day)`. -/
structure PDate where
  year : Nat
  month : Nat
  day : Nat
deriving DecidableEq, Repr

/-- Gregorian leap-year rule used by `datetime`. -/
def isLeapYear (y : Nat) : Bool :=
  y % 4 == 0 && (y % 100 != 0 || y % 400 == 0)

/-- Days in a month (0 for an invalid month index). -/
def daysInMonth (y m : Nat) : Nat :=
  if m == 1 || m == 3 || m == 5 || m == 7 || m == 8 || m == 10 || m == 12 then 31
  else if m == 4 || m == 6 || m == 9 || m == 11 then 30
  else if m == 2 then (if isLeapYear y then 29 else 28)
  else 0

/-- Whether `datetime(y, m, d)` succeeds (no ValueError). -/
def isValidDate (y m d : Nat) : Bool :=
  1 ≤ y && y ≤ 9999 && 1 ≤ m && m ≤ 12 && 1 ≤ d && d ≤ daysInMonth y m

/-- Lexicographic order on dates, matching `datetime`/Timestamp comparison. -/
def pdLe (a b : PDate) : Bool :=
  a.year < b.year ||
    (a.year == b.year &&
      (a.month < b.month || (a.month == b.month && a.day ≤ b.day)))

/-! ## Fixed tables from app.py -/

/-- MONTH_MAPPINGS from app.py. -/
def MONTH_MAPPINGS : List (String × Nat) :=
  [("jan", 1), ("january", 1),
   ("feb", 2), ("february", 2),
   ("mar", 3), ("march", 3),
   ("apr", 4), ("april", 4),
   ("may", 5),
   ("jun", 6), ("june", 6),
   ("jul", 7), ("july", 7),
   ("aug", 8), ("august", 8),
   ("sep", 9), ("sept", 9), ("september", 9),
   ("oct", 10), ("october", 10),
   ("nov", 11), ("november", 11),
   ("dec", 12), ("december", 12)]

/-- REGION_MAPPINGS from app.py, in dict insertion order. -/
def REGION_MAPPINGS : List (String × List String) :=
  [("US", ["s&p500", "s&p 500", "sp500", "us", "usa", "nasdaq", "russell", "dow", "american"]),
   ("Europe", ["europe", "european", "eu", "stoxx", "euro stoxx", "ftse developed europe", "msci europe"]),
   ("UK", ["uk", "united kingdom", "ftse", "ftse100", "ftse 100", "ftse250", "british", "london"]),
   ("APAC Ex Japan", ["apac ex jpy", "apac ex japan", "apac", "asia pacific", "asia", "asian", "pacific", "emerging asia", "asean"]),
   ("Japan", ["japan", "japanese", "nikkei", "topix", "tokyo"]),
   ("China", ["china", "chinese", "shanghai", "shenzhen", "hang seng", "hsi", "csi", "a-shares", "h-shares"]),
   ("Global", ["global", "world", "msci world", "acwi", "all country", "worldwide"]),
   ("Global Ex US", ["global ex us", "global ex-us", "world ex us", "international", "eafe", "ex-us", "non-us"])]

/-! ## Date extraction (extract_date_from_filename)

Pattern 1 is `([a-zA-Z]+)\s+(\d{1,2})\s+(\d{4})` searched case-insensitively;
`re.search` returns the leftmost match.  At a given start position the letter
group is forced to be the maximal letter run (shortening it puts a letter in
front of `\s+`), the whitespace runs are maximal, the day group is the full
digit run (which must have length 1 or 2), and the year group is the first
four digits of a run of length at least four. -/

/-- Try to match pattern 1 starting exactly at the head of `l`, returning
(letter group, day, year). -/
def matchP1At (l : List Char) : Option (List Char × Nat × Nat) :=
  let ltrs := l.takeWhile isLetterC
  if ltrs.isEmpty then none
  else
    let r1 := l.dropWhile isLetterC
    if (r1.takeWhile isSpaceC).isEmpty then none
    else
      let r2 := r1.dropWhile isSpaceC
      let ds := r2.takeWhile isDigitC
      if ds.length == 1 || ds.length == 2 then
        let r3 := r2.dropWhile isDigitC
        if (r3.takeWhile isSpaceC).isEmpty then none
        else
          let r4 := r3.dropWhile isSpaceC
          let ys := r4.takeWhile isDigitC
          if 4 ≤ ys.length then some (ltrs, natOfDigits ds, natOfDigits (ys.take 4))
          else none
      else none

/-- Leftmost match of pattern 1 (`re.search` semantics). -/
def findP1 : List Char → Option (List Char × Nat × Nat)
  | [] => none
  | l@(_ :: rest) =>
    match matchP1At l with
    | some x => some x
    | none => findP1 rest

/-- Step 1 of extract_date_from_filename: month-name table lookup plus
`datetime` construction; `none` means fall through to the next pattern. -/
def p1Extract (fn : String) : Option PDate :=
  match findP1 fn.toList with
  | none => none
  | some (m, d, y) =>
    match List.lookup (String.mk (m.map Char.toLower)) MONTH_MAPPINGS with
    | none => none
    | some mo => if isValidDate y mo d then some ⟨y, mo, d⟩ else none

/-- Try to match pattern 2, `(\d{4})-(\d{2})-(\d{2})`, at the head of `l`. -/
def matchP2At (l : List Char) : Option (Nat × Nat × Nat) :=
  match l with
  | a :: b :: c :: d :: e :: f :: g :: h :: i :: j :: _ =>
    if [a, b, c, d].all isDigitC && e == '-' && [f, g].all isDigitC &&
        h == '-' && [i, j].all isDigitC then
      some (natOfDigits [a, b, c, d], natOfDigits [f, g], natOfDigits [i, j])
    else none
  | _ => none

/-- Leftmost match of pattern 2. -/
def findP2 : List Char → Option (Nat × Nat × Nat)
  | [] => none
  | l@(_ :: rest) =>
    match matchP2At l with
    | some x => some x
    | none => findP2 rest

/-- Step 2 of extract_date_from_filename. -/
def p2Extract (fn : String) : Option PDate :=
  match findP2 fn.toList with
  | none => none
  | some (y, m, d) => if isValidDate y m d then some ⟨y, m, d⟩ else none

/-- Leftmost window of 8 consecutive digits (pattern 3,
`(\d{4})(\d{2})(\d{2})`). -/
def findWin8 : List Char → Option (List Char)
  | [] => none
  | l@(_ :: rest) =>
    if (l.take 8).length == 8 && (l.take 8).all isDigitC then some (l.take 8)
    else findWin8 rest

/-- Whether a string contains 8 consecutive digits anywhere. -/
def hasWin8 (l : List Char) : Bool :=
  (findWin8 l).isSome

/-- Step 3 of extract_date_from_filename. -/
def p3Extract (fn : String) : Option PDate :=
  match findWin8 fn.toList with
  | none => none
  | some w =>
    if isValidDate (natOfDigits (w.take 4)) (natOfDigits ((w.drop 4).take 2))
        (natOfDigits ((w.drop 6).take 2)) then
      some ⟨natOfDigits (w.take 4), natOfDigits ((w.drop 4).take 2),
        natOfDigits ((w.drop 6).take 2)⟩
    else none

/-- extract_date_from_filename: the three patterns tried in order, first
success wins, `none` if all fail. -/
def extract_date_from_filename (fn : String) : Option PDate :=
  match p1Extract fn with
  | some d => some d
  | none =>
    match p2Extract fn with
    | some d => some d
    | none => p3Extract fn

/-! ## Region extraction (extract_region_from_filename) -/

/-- The general-keyword loop over REGION_MAPPINGS: first region one of whose
keywords matches with word boundaries wins. -/
def findRegion : List (String × List String) → List Char → Option String
  | [], _ => none
  | (r, kws) :: rest, l =>
    if kws.any (fun kw => wbSearch kw l) then some r else findRegion rest l

/-- extract_region_from_filename: compound phrases first, then the keyword
table, else "Unclassified". -/
def extract_region_from_filename (fn : String) : String :=
  if hasSubCL "global ex us".toList (lowerCL fn) ||
      hasSubCL "global ex-us".toList (lowerCL fn) then
    "Global Ex US"
  else if hasSubCL "apac ex jpy".toList (lowerCL fn) ||
      hasSubCL "apac ex japan".toList (lowerCL fn) then
    "APAC Ex Japan"
  else if hasSubCL "s&p500".toList (lowerCL fn) ||
      hasSubCL "s&p 500".toList (lowerCL fn) ||
      hasSubCL "sp500".toList (lowerCL fn) then
    "US"
  else
    match findRegion REGION_MAPPINGS (lowerCL fn) with
    | some r => r
    | none => "Unclassified"

/-- The fixed set of region tags the classifier can produce. -/
def regionTags : List String :=
  ["US", "Europe", "UK", "APAC Ex Japan", "Japan", "China", "Global",
   "Global Ex US", "Unclassified"]

/-! ## DataFrame model

A pandas DataFrame is modelled positionally: a list of column names and a
list of rows, each row a list of cell values.  A cell is an integer, a
string, a date (pandas Timestamp) or missing (NaN/NaT).  Row indices are
not modelled; boolean-mask filtering is positional. -/

/-- One cell of a DataFrame. -/
inductive Value where
  | int (i : Int)
  | str (s : String)
  | date (d : PDate)
  | na
deriving DecidableEq, Repr

/-- A DataFrame: column names plus rows of cells, positionally aligned. -/
structure DF where
  cols : List String
  rows : List (List Value)
deriving DecidableEq, Repr

/-- Real DataFrames are rectangular: every row has one cell per column. -/
def DF.WF (df : DF) : Prop :=
  ∀ r ∈ df.rows, r.length = df.cols.length

/-- Position of a column name in a column list (first occurrence). -/
def cIdx : List String → String → Option Nat
  | [], _ => none
  | c :: cs, t => if c = t then some 0 else (cIdx cs t).map (· + 1)

/-- `df[name]` column lookup position; `none` models a pandas KeyError. -/
def DF.colIdx (df : DF) (name : String) : Option Nat :=
  cIdx df.cols name

/-- The values of a named column (`df[name]` as a list). -/
def DF.colVals (df : DF) (name : String) : Option (List Value) :=
  (df.colIdx name).map (fun i => df.rows.map (fun r => r.getD i .na))

/-- `df.empty`: true when either axis has length zero. -/
def isEmptyDF (df : DF) : Bool :=
  df.rows.isEmpty || df.cols.isEmpty

/-- Append a fresh column on the right (`df[name] = vals` with `name` new). -/
def appendCol (df : DF) (name : String) (vals : List Value) : DF :=
  ⟨df.cols ++ [name], List.zipWith (fun r v => r ++ [v]) df.rows vals⟩

/-- `df[name] = vals`: overwrite in place if the column exists, else append. -/
def assignCol (df : DF) (name : String) (vals : List Value) : DF :=
  match df.colIdx name with
  | some i => ⟨df.cols, List.zipWith (fun r v => r.set i v) df.rows vals⟩
  | none => appendCol df name vals

/-! ## Schema normalizer (standardize_column_names) -/

/-- column_mappings from standardize_column_names. -/
def COLUMN_MAPPINGS : List (String × String) :=
  [("ticker", "Ticker"), ("symbol", "Ticker"), ("stock", "Ticker"),
   ("stock code", "Ticker"), ("code", "Ticker"),
   ("company", "Company Name"), ("company name", "Company Name"),
   ("name", "Company Name"), ("company_name", "Company Name"),
   ("sector", "Sector"), ("industry", "Sector"), ("gics sector", "Sector"),
   ("current decile", "Current Decile"), ("current_decile", "Current Decile"),
   ("decile", "Current Decile"), ("curr decile", "Current Decile"),
   ("previous decile", "Previous Decile"), ("previous_decile", "Previous Decile"),
   ("prev decile", "Previous Decile"), ("prior decile", "Previous Decile"),
   ("decile change", "Decile Change"), ("decile_change", "Decile Change"),
   ("change", "Decile Change"),
   ("score", "Score"), ("total score", "Score"), ("composite score", "Score"),
   ("market cap", "Market Cap (Bn)"), ("market_cap", "Market Cap (Bn)"),
   ("marketcap", "Market Cap (Bn)"), ("mkt cap", "Market Cap (Bn)")]

/-- Python `str.strip()`: drop whitespace from both ends. -/
def stripCL (l : List Char) : List Char :=
  ((l.dropWhile isSpaceC).reverse.dropWhile isSpaceC).reverse

/-- Rename one header: `col.lower().strip()` looked up in column_mappings,
unknown headers pass through unchanged. -/
def stdHdr (c : String) : String :=
  match List.lookup (String.mk (stripCL (lowerCL c))) COLUMN_MAPPINGS with
  | some v => v
  | none => c

/-- standardize_column_names: rename headers, data untouched. -/
def standardize_column_names (df : DF) : DF :=
  ⟨df.cols.map stdHdr, df.rows⟩

/-! ## Record enricher (process_file_data) -/

/-- Elementwise pandas subtraction on cells; NaN propagates.  (pandas would
raise on non-numeric cells; deciles are numeric, so those cases are mapped
to NaN here and never exercised by the theorems below.) -/
def subV : Value → Value → Value
  | .int a, .int b => .int (a - b)
  | _, _ => .na

/-- `df['Region'] = region`: broadcast a scalar region over all rows. -/
def withRegion (df : DF) (region : String) : DF :=
  assignCol df "Region" (df.rows.map (fun _ => .str region))

/-- `df['File Date'] = v`: broadcast a scalar date over all rows. -/
def withFileDate (df : DF) (v : Value) : DF :=
  assignCol df "File Date" (df.rows.map (fun _ => v))

/-- The frame after header standardization and the Region / File Date
assignments, before the Decile Change derivation step. -/
def enriched (df : DF) (region : String) (fdv : Value) : DF :=
  withFileDate (withRegion (standardize_column_names df) region) fdv

/-- process_file_data: `None` for an empty frame, else standardize headers,
set Region and File Date (falling back to `now` when the date is absent),
and derive Decile Change when missing but derivable.  `datetime.now()` is
passed in explicitly as `now`. -/
def process_file_data (df : DF) (region : String) (file_date : Option PDate)
    (now : PDate) : Option DF :=
  if isEmptyDF df then none
  else
    match (enriched df region (.date (file_date.getD now))).colIdx "Decile Change",
        (enriched df region (.date (file_date.getD now))).colIdx "Current Decile",
        (enriched df region (.date (file_date.getD now))).colIdx "Previous Decile" with
    | none, some ic, some ip =>
      some (assignCol (enriched df region (.date (file_date.getD now)))
        "Decile Change"
        ((enriched df region (.date (file_date.getD now))).rows.map
          (fun r => subV (r.getD ic .na) (r.getD ip .na))))
    | _, _, _ => some (enriched df region (.date (file_date.getD now)))

/-! ## Filter engine -/

/-- `series <= n` on a cell: NaN compares False.  (On string cells pandas
raises TypeError, which is not modelled: non-numeric cells are mapped to
False here, and the theorems that depend on these comparisons restrict the
decile columns to numeric-or-missing cells.) -/
def vleN (v : Value) (n : Int) : Bool :=
  match v with
  | .int a => a ≤ n
  | _ => false

/-- `series >= n` on a cell. -/
def vgeN (v : Value) (n : Int) : Bool :=
  match v with
  | .int a => n ≤ a
  | _ => false

/-- `series > n` on a cell. -/
def vgtN (v : Value) (n : Int) : Bool :=
  match v with
  | .int a => n < a
  | _ => false

/-- `series < n` on a cell. -/
def vltN (v : Value) (n : Int) : Bool :=
  match v with
  | .int a => a < n
  | _ => false

/-- filter_by_decile_criteria.  Named criteria access the decile columns
unconditionally, so a missing column is a pandas KeyError, modelled as
`.error`. -/
def filter_by_decile_criteria (df : DF) (criteria : String) :
    Except String DF :=
  if isEmptyDF df then .ok df
  else if criteria = "All Decile Movements" then .ok df
  else if criteria = "Entering Top 2 Deciles" then
    match df.colIdx "Current Decile", df.colIdx "Previous Decile" with
    | some ic, some ip =>
      .ok ⟨df.cols, df.rows.filter
        (fun r => vleN (r.getD ic .na) 2 && vgtN (r.getD ip .na) 2)⟩
    | _, _ => .error "KeyError"
  else if criteria = "Entering Bottom 2 Deciles" then
    match df.colIdx "Current Decile", df.colIdx "Previous Decile" with
    | some ic, some ip =>
      .ok ⟨df.cols, df.rows.filter
        (fun r => vgeN (r.getD ic .na) 9 && vltN (r.getD ip .na) 9)⟩
    | _, _ => .error "KeyError"
  else if criteria = "Moving +3 Deciles" then
    match df.colIdx "Decile Change" with
    | some i => .ok ⟨df.cols, df.rows.filter (fun r => vgeN (r.getD i .na) 3)⟩
    | none => .error "KeyError"
  else if criteria = "Moving +5 Deciles" then
    match df.colIdx "Decile Change" with
    | some i => .ok ⟨df.cols, df.rows.filter (fun r => vgeN (r.getD i .na) 5)⟩
    | none => .error "KeyError"
  else .ok df

/-- `pd.to_datetime` on one cell.  Timestamps and NaT are fixed points;
other cell kinds (which pandas would parse or raise on) are mapped to NaT
and are excluded by hypothesis in the theorems that use this. -/
def toDatetimeV : Value → Value
  | .date p => .date p
  | .na => .na
  | _ => .na

/-- `cell >= d` for a Timestamp bound; NaT compares False. -/
def vdGe (v : Value) (d : PDate) : Bool :=
  match v with
  | .date p => pdLe d p
  | _ => false

/-- `cell <= d` for a Timestamp bound; NaT compares False. -/
def vdLe (v : Value) (d : PDate) : Bool :=
  match v with
  | .date p => pdLe p d
  | _ => false

/-- filter_by_date_range: pass-through when empty or the File Date column is
missing; otherwise converts File Date with to_datetime and keeps rows in the
inclusive range. -/
def filter_by_date_range (df : DF) (start_date end_date : PDate) : DF :=
  if isEmptyDF df then df
  else
    match df.colIdx "File Date" with
    | none => df
    | some i =>
      ⟨df.cols,
        (df.rows.map (fun r => r.set i (toDatetimeV (r.getD i .na)))).filter
          (fun r => vdGe (r.getD i .na) start_date &&
            vdLe (r.getD i .na) end_date)⟩

/-- `astype(str)` on one cell: pandas renders NaN as the string "nan". -/
def pyStrCL (v : Value) : List Char :=
  match v with
  | .str s => s.toList
  | .int i => (toString i).toList
  | .date p => (toString p.year ++ "-" ++ toString p.month ++ "-" ++
      toString p.day).toList
  | .na => "nan".toList

/-- The search predicate contribution of one column, if present:
`astype(str).str.lower().str.contains(term)`.  (pandas treats the term as a
regular expression, and raises re.error on invalid patterns such as "c++";
the model uses plain substring containment, which coincides with the
program exactly on terms made of plain characters — see `plainChar` — and
the theorems that depend on search restrict terms accordingly.) -/
def searchHit (cols : List String) (name : String) (term : List Char)
    (r : List Value) : Bool :=
  match cIdx cols name with
  | some i => hasSubCL term ((pyStrCL (r.getD i .na)).map Char.toLower)
  | none => false

/-- filter_by_search: pass-through on empty frame or empty term; otherwise
keeps rows whose Ticker or Company Name rendering contains the lowercased,
stripped term. -/
def filter_by_search (df : DF) (search_term : String) : DF :=
  if isEmptyDF df = true ∨ search_term = "" then df
  else
    ⟨df.cols, df.rows.filter
      (fun r => searchHit df.cols "Ticker" (stripCL (lowerCL search_term)) r ||
        searchHit df.cols "Company Name" (stripCL (lowerCL search_term)) r)⟩

/-- filter_by_sector: pass-through on empty frame, the "All Sectors"
sentinel, or a missing Sector column; else exact match. -/
def filter_by_sector (df : DF) (sector : String) : DF :=
  if isEmptyDF df = true ∨ sector = "All Sectors" then df
  else
    match df.colIdx "Sector" with
    | none => df
    | some i => ⟨df.cols, df.rows.filter (fun r => r.getD i .na == .str sector)⟩

/-- filter_by_region: pass-through on empty frame, the "All Regions"
sentinel, or a missing Region column; else exact match. -/
def filter_by_region (df : DF) (region : String) : DF :=
  if isEmptyDF df = true ∨ region = "All Regions" then df
  else
    match df.colIdx "Region" with
    | none => df
    | some i => ⟨df.cols, df.rows.filter (fun r => r.getD i .na == .str region)⟩

/-! ## Filter sequencing, for order-independence statements -/

/-- One application of one of the five filters with its argument(s). -/
inductive FStep where
  | region (r : String)
  | sector (s : String)
  | dateRange (a b : PDate)
  | decile (c : String)
  | search (t : String)
deriving DecidableEq, Repr

/-- Apply one filter step; only the decile filter can fail. -/
def applyFStep (df : DF) : FStep → Except String DF
  | .region r => .ok (filter_by_region df r)
  | .sector s => .ok (filter_by_sector df s)
  | .dateRange a b => .ok (filter_by_date_range df a b)
  | .decile c => filter_by_decile_criteria df c
  | .search t => .ok (filter_by_search df t)

/-- Apply a sequence of filter steps left to right, stopping at the first
error. -/
def applyFilterSeq : List FStep → DF → Except String DF
  | [], df => .ok df
  | s :: l, df =>
    match applyFStep df s with
    | .ok df1 => applyFilterSeq l df1
    | .error e => .error e

/-- The per-row predicate a filter step reduces to when it cannot raise:
pass-through cases are the constant-true predicate. -/
def stepPred (cols : List String) : FStep → List Value → Bool
  | .region rg, r =>
    if rg = "All Regions" then true
    else
      match cIdx cols "Region" with
      | none => true
      | some i => r.getD i .na == .str rg
  | .sector sc, r =>
    if sc = "All Sectors" then true
    else
      match cIdx cols "Sector" with
      | none => true
      | some i => r.getD i .na == .str sc
  | .dateRange a b, r =>
    match cIdx cols "File Date" with
    | none => true
    | some i => vdGe (r.getD i .na) a && vdLe (r.getD i .na) b
  | .decile c, r =>
    if c = "All Decile Movements" then true
    else if c = "Entering Top 2 Deciles" then
      match cIdx cols "Current Decile", cIdx cols "Previous Decile" with
      | some ic, some ip => vleN (r.getD ic .na) 2 && vgtN (r.getD ip .na) 2
      | _, _ => true
    else if c = "Entering Bottom 2 Deciles" then
      match cIdx cols "Current Decile", cIdx cols "Previous Decile" with
      | some ic, some ip => vgeN (r.getD ic .na) 9 && vltN (r.getD ip .na) 9
      | _, _ => true
    else if c = "Moving +3 Deciles" then
      match cIdx cols "Decile Change" with
      | some i => vgeN (r.getD i .na) 3
      | none => true
    else if c = "Moving +5 Deciles" then
      match cIdx cols "Decile Change" with
      | some i => vgeN (r.getD i .na) 5
      | none => true
    else true
  | .search t, r =>
    if t = "" then true
    else
      searchHit cols "Ticker" (stripCL (lowerCL t)) r ||
        searchHit cols "Company Name" (stripCL (lowerCL t)) r

/-- Numeric-or-missing cell: exactly the cells on which pandas ordered
comparison with an integer is total (NaN compares False).  On string cells
pandas raises TypeError, which this embedding does not model. -/
def numCell : Value → Bool
  | .int _ => true
  | .na => true
  | _ => false

/-- Hypotheses under which no filter can raise and the embedding of each
filter is exact: the three decile columns exist, every File Date cell is
already a fixed point of to_datetime (a Timestamp or NaT), and every cell of
the three decile columns is numeric or missing (otherwise the program's
comparisons raise TypeError where the model returns False). -/
def FilterReady (df : DF) : Prop :=
  "Current Decile" ∈ df.cols ∧ "Previous Decile" ∈ df.cols ∧
    "Decile Change" ∈ df.cols ∧
    (∀ i, df.colIdx "File Date" = some i →
      ∀ r ∈ df.rows, toDatetimeV (r.getD i .na) = r.getD i .na) ∧
    ∀ i, df.colIdx "Current Decile" = some i ∨
        df.colIdx "Previous Decile" = some i ∨
        df.colIdx "Decile Change" = some i →
      ∀ r ∈ df.rows, numCell (r.getD i .na) = true

/-- The canonical schema headers. -/
def canonicalCols : List String :=
  ["Ticker", "Company Name", "Sector", "Current Decile", "Previous Decile",
   "Decile Change", "Score", "Market Cap (Bn)"]

/-- Characters that regular expressions treat literally; on search terms made
of these, pandas `str.contains` agrees with plain substring search. -/
def plainChar (c : Char) : Bool :=
  isLetterC c || isDigitC c || c == ' '

/-- Guard on one filter step: search terms must consist of plain characters,
the fragment on which pandas str.contains is a total, literal substring
search.  An invalid regex term such as "c++" makes the program raise
re.error, which this embedding does not model; other steps need no guard. -/
def stepOK : FStep → Bool
  | .search t => t.toList.all plainChar
  | _ => true

end Newtest3


namespace Newtest3

/-! ## Supporting lemmas -/

/-- A successful column lookup implies membership. -/
theorem cIdx_some_mem {cols : List String} {c : String} {i : Nat}
    (h : cIdx cols c = some i) : c ∈ cols := by
  induction cols generalizing i with
  | nil => simp [cIdx] at h
  | cons a as ih =>
    rw [cIdx] at h
    split at h
    · subst a; exact List.mem_cons_self _ _
    · cases hi : cIdx as c with
      | none => rw [hi] at h; simp at h
      | some j => exact List.mem_cons_of_mem _ (ih hi)

/-- A failed column lookup means the name is absent. -/
theorem cIdx_none_iff {cols : List String} {c : String} :
    cIdx cols c = none ↔ c ∉ cols := by
  induction cols with
  | nil => simp [cIdx]
  | cons a as ih =>
    rw [cIdx]
    split
    · subst a; simp
    · cases hi : cIdx as c with
      | none => simp only [hi, Option.map_none']
                constructor
                · intro _ hmem
                  rcases List.mem_cons.mp hmem with rfl | hmem
                  · simp_all
                  · exact (ih.mp hi) hmem
                · intro _; trivial
      | some j => simp only [hi, Option.map_some']
                  constructor
                  · intro h; simp at h
                  · intro h
                    exact absurd (List.mem_cons_of_mem _ (cIdx_some_mem hi)) h

/-- Membership gives a successful column lookup. -/
theorem cIdx_isSome_of_mem {cols : List String} {c : String} (h : c ∈ cols) :
    (cIdx cols c).isSome := by
  cases hi : cIdx cols c with
  | none => exact absurd h (cIdx_none_iff.mp hi)
  | some j => rfl

/-- Column positions are bounded by the number of columns. -/
theorem cIdx_lt_length {cols : List String} {c : String} {i : Nat}
    (h : cIdx cols c = some i) : i < cols.length := by
  induction cols generalizing i with
  | nil => simp [cIdx] at h
  | cons a as ih =>
    rw [cIdx] at h
    split at h
    · injection h with h; subst h; simp
    · cases hi : cIdx as c with
      | none => rw [hi] at h; simp at h
      | some j =>
        rw [hi] at h
        injection h with h
        subst h
        exact Nat.succ_lt_succ (ih hi)

/-- Appending columns on the right does not move an existing column. -/
theorem cIdx_append_of_some {cols : List String} {c : String} {i : Nat}
    (cols2 : List String) (h : cIdx cols c = some i) :
    cIdx (cols ++ cols2) c = some i := by
  induction cols generalizing i with
  | nil => simp [cIdx] at h
  | cons a as ih =>
    rw [cIdx] at h
    rw [List.cons_append, cIdx]
    split at h
    · rw [if_pos (by assumption)]; exact h
    · rw [if_neg (by assumption)]
      cases hi : cIdx as c with
      | none => rw [hi] at h; simp at h
      | some j =>
        rw [hi] at h
        rw [ih hi]
        exact h

/-- A fresh column appended on the right lands at position `cols.length`. -/
theorem cIdx_append_self {cols : List String} {c : String}
    (h : cIdx cols c = none) : cIdx (cols ++ [c]) c = some cols.length := by
  induction cols with
  | nil => simp [cIdx]
  | cons a as ih =>
    rw [cIdx] at h
    split at h
    · simp at h
    · rw [List.cons_append, cIdx, if_neg (by assumption)]
      cases hi : cIdx as c with
      | none => rw [ih hi]; simp
      | some j => rw [hi] at h; simp at h

/-- Appending a differently-named column preserves lookup failure. -/
theorem cIdx_append_none {cols : List String} {c n : String}
    (h : cIdx cols c = none) (hne : c ≠ n) : cIdx (cols ++ [n]) c = none := by
  rw [cIdx_none_iff] at h ⊢
  intro hmem
  rcases List.mem_append.mp hmem with hmem | hmem
  · exact h hmem
  · simp at hmem; exact hne hmem

/-- A non-empty frame with at least one column has a row. -/
theorem rows_eq_nil_of_empty {df : DF} (hc : df.cols ≠ [])
    (he : isEmptyDF df = true) : df.rows = [] := by
  unfold isEmptyDF at he
  rcases Bool.or_eq_true_iff.mp he with h | h
  · exact List.isEmpty_iff.mp h
  · exact absurd (List.isEmpty_iff.mp h) hc

end Newtest3

namespace Newtest3

/-- The keyword-table loop only returns region names from the table. -/
theorem findRegion_mem (tbl : List (String × List String)) (l : List Char)
    (r : String) (h : findRegion tbl l = some r) : r ∈ tbl.map Prod.fst := by
  induction tbl with
  | nil => simp [findRegion] at h
  | cons p rest ih =>
    obtain ⟨nm, kws⟩ := p
    rw [findRegion] at h
    split at h
    · injection h with h
      subst h
      exact List.mem_cons_self _ _
    · exact List.mem_cons_of_mem _ (ih h)

/-- C3 (confirmed): a filename containing "global ex us" or "global ex-us"
(case-insensitively) is classified as "Global Ex US" — the compound-phrase
check runs before the general keyword table, so neither "Global" nor "US"
can win. -/
theorem claim_C3_compound_region (fn : String)
    (h : hasSubCL "global ex us".toList (lowerCL fn) = true ∨
      hasSubCL "global ex-us".toList (lowerCL fn) = true) :
    extract_region_from_filename fn = "Global Ex US" := by
  have hb : (hasSubCL "global ex us".toList (lowerCL fn) ||
      hasSubCL "global ex-us".toList (lowerCL fn)) = true := by
    rcases h with h | h
    · rw [h, Bool.true_or]
    · rw [h, Bool.or_true]
  unfold extract_region_from_filename
  rw [if_pos hb]

/-- C3 witness: the spec's example filename, with both the region and the
extracted date checked. -/
theorem claim_C3_witness :
    extract_region_from_filename "GLOBAL Ex US Mar 11 2025.xlsx" =
      "Global Ex US" ∧
    extract_date_from_filename "GLOBAL Ex US Mar 11 2025.xlsx" =
      some ⟨2025, 3, 11⟩ :=
  ⟨claim_C3_compound_region _ (Or.inl (by decide)), by decide⟩

/-- C7 (confirmed): region classification is total — for every input string
it returns exactly one tag drawn from the fixed enumerated set. -/
theorem claim_C7_region_total (fn : String) :
    extract_region_from_filename fn ∈ regionTags := by
  unfold extract_region_from_filename
  split
  · decide
  · split
    · decide
    · split
      · decide
      · split
        · next r heq =>
          have hr : r ∈ REGION_MAPPINGS.map Prod.fst := findRegion_mem _ _ _ heq
          exact (by decide :
            ∀ x ∈ REGION_MAPPINGS.map Prod.fst, x ∈ regionTags) r hr
        · decide

/-- Canonical headers are fixed points of the header-rename map. -/
theorem stdHdr_canonical_id : ∀ c ∈ canonicalCols, stdHdr c = c := by decide

/-- C9 (confirmed): on a frame whose headers are all already canonical,
standardize_column_names is the identity. -/
theorem claim_C9_normalize_id (df : DF)
    (h : ∀ c ∈ df.cols, c ∈ canonicalCols) :
    standardize_column_names df = df := by
  unfold standardize_column_names
  have hm : df.cols.map stdHdr = df.cols := by
    calc df.cols.map stdHdr = df.cols.map id :=
          List.map_congr_left (fun c hc => stdHdr_canonical_id c (h c hc))
      _ = df.cols := List.map_id _
  rw [hm]

/-- C9 witness: the full canonical header list is left unchanged. -/
theorem claim_C9_witness :
    standardize_column_names ⟨canonicalCols, [[Value.str "AAPL"]]⟩ =
      ⟨canonicalCols, [[Value.str "AAPL"]]⟩ :=
  claim_C9_normalize_id _ (by decide)

/-- C1 (corrected): the month-name date is extracted whenever the LEFTMOST
occurrence of the pattern (letter run, spaces, 1-2 digits, spaces, 4 digits)
has its letter run in the month table and forms a valid calendar date.  The
original claim — any valid month-name substring is extracted regardless of
surrounding text — fails, because re.search commits to the single leftmost
pattern occurrence (see the counterexample). -/
theorem claim_C1_leftmost_month (fn : String) (m : List Char) (d y mo : Nat)
    (h1 : findP1 fn.toList = some (m, d, y))
    (h2 : List.lookup (String.mk (m.map Char.toLower)) MONTH_MAPPINGS = some mo)
    (h3 : isValidDate y mo d = true) :
    extract_date_from_filename fn = some ⟨y, mo, d⟩ := by
  have hp1 : p1Extract fn = some ⟨y, mo, d⟩ := by
    simp only [p1Extract, h1, h2, h3, if_true]
  unfold extract_date_from_filename
  rw [hp1]

/-- C1 witness: the spec's own example filename. -/
theorem claim_C1_witness :
    findP1 "S&P500 March 11 2025.xlsx".toList =
      some ("March".toList, 11, 2025) ∧
    extract_date_from_filename "S&P500 March 11 2025.xlsx" =
      some ⟨2025, 3, 11⟩ :=
  ⟨by decide,
    claim_C1_leftmost_month _ "March".toList 11 2025 3 (by decide) (by decide)
      (by decide)⟩

/-- C1 counterexample: "Xmarch 11 2025.xlsx" contains the valid month-name
date substring "march 11 2025", yet extraction returns nothing, because the
leftmost pattern occurrence grabs the letter run "Xmarch", which is not in
the month table, and no later occurrence is retried. -/
theorem claim_C1_cex :
    hasSubCL "march 11 2025".toList (lowerCL "Xmarch 11 2025.xlsx") = true ∧
    List.lookup "march" MONTH_MAPPINGS = some 3 ∧
    isValidDate 2025 3 11 = true ∧
    extract_date_from_filename "Xmarch 11 2025.xlsx" = none := by decide

end Newtest3

namespace Newtest3

/-- C2 (corrected): how each filter actually behaves on a non-empty table
missing a required column.  Date-range, sector and region filters degrade to
pass-through; the free-text search filter returns an EMPTY frame (not the
input) when both searchable columns are missing and the term is non-empty;
and the decile-movement filter raises a KeyError for a non-sentinel
criterion — it does not pass through. -/
theorem claim_C2_missing_columns :
    (∀ (df : DF) (a b : PDate), df.colIdx "File Date" = none →
      filter_by_date_range df a b = df) ∧
    (∀ (df : DF) (s : String), df.colIdx "Sector" = none →
      filter_by_sector df s = df) ∧
    (∀ (df : DF) (r : String), df.colIdx "Region" = none →
      filter_by_region df r = df) ∧
    (∀ (df : DF) (t : String), isEmptyDF df = false → t ≠ "" →
      df.colIdx "Ticker" = none → df.colIdx "Company Name" = none →
      filter_by_search df t = ⟨df.cols, []⟩) ∧
    (∀ df : DF, isEmptyDF df = false → df.colIdx "Current Decile" = none →
      filter_by_decile_criteria df "Entering Top 2 Deciles" =
        .error "KeyError") := by
  refine ⟨?_, ?_, ?_, ?_, ?_⟩
  · intro df a b h
    unfold filter_by_date_range
    cases he : isEmptyDF df
    · rw [if_neg (by simp [he])]
      rw [show df.colIdx "File Date" = none from h]
    · rw [if_pos rfl]
  · intro df s h
    unfold filter_by_sector
    by_cases he : isEmptyDF df = true ∨ s = "All Sectors"
    · rw [if_pos he]
    · rw [if_neg he]
      rw [show df.colIdx "Sector" = none from h]
  · intro df r h
    unfold filter_by_region
    by_cases he : isEmptyDF df = true ∨ r = "All Regions"
    · rw [if_pos he]
    · rw [if_neg he]
      rw [show df.colIdx "Region" = none from h]
  · intro df t hne ht hT hC
    unfold filter_by_search
    rw [if_neg (by rw [not_or]; exact ⟨by simp [hne], ht⟩)]
    have hfalse : ∀ r ∈ df.rows,
        (searchHit df.cols "Ticker" (stripCL (lowerCL t)) r ||
          searchHit df.cols "Company Name" (stripCL (lowerCL t)) r) = false := by
      intro r _
      unfold searchHit
      rw [show cIdx df.cols "Ticker" = none from hT,
        show cIdx df.cols "Company Name" = none from hC]
      rfl
    rw [List.filter_congr hfalse, List.filter_false]
  · intro df hne hc
    unfold filter_by_decile_criteria
    rw [if_neg (by simp [hne])]
    rw [if_neg (by decide), if_pos rfl]
    rw [show df.colIdx "Current Decile" = none from hc]

end Newtest3

namespace Newtest3

/-- C2 witness: one concrete non-empty single-column frame exercising all
five parts of the missing-column behavior theorem. -/
theorem claim_C2_witness :
    filter_by_date_range ⟨["X"], [[Value.int 0]]⟩ ⟨2025, 1, 1⟩ ⟨2025, 12, 31⟩ =
      ⟨["X"], [[Value.int 0]]⟩ ∧
    filter_by_sector ⟨["X"], [[Value.int 0]]⟩ "Energy" =
      ⟨["X"], [[Value.int 0]]⟩ ∧
    filter_by_region ⟨["X"], [[Value.int 0]]⟩ "Japan" =
      ⟨["X"], [[Value.int 0]]⟩ ∧
    filter_by_search ⟨["X"], [[Value.int 0]]⟩ "ford" = ⟨["X"], []⟩ ∧
    filter_by_decile_criteria ⟨["X"], [[Value.int 0]]⟩
      "Entering Top 2 Deciles" = .error "KeyError" :=
  ⟨claim_C2_missing_columns.1 _ _ _ rfl,
   claim_C2_missing_columns.2.1 _ _ rfl,
   claim_C2_missing_columns.2.2.1 _ _ rfl,
   claim_C2_missing_columns.2.2.2.1 _ _ rfl (by decide) rfl rfl,
   claim_C2_missing_columns.2.2.2.2 _ rfl rfl⟩

/-- C2 counterexample: a non-empty frame without decile columns makes the
decile-movement filter raise (KeyError), refuting the claim that every
filter degrades to pass-through without raising. -/
theorem claim_C2_cex :
    isEmptyDF ⟨["Ticker"], [[Value.str "AAPL"]]⟩ = false ∧
    cIdx ["Ticker"] "Current Decile" = none ∧
    filter_by_decile_criteria ⟨["Ticker"], [[Value.str "AAPL"]]⟩
      "Entering Top 2 Deciles" = .error "KeyError" :=
  ⟨rfl, rfl, rfl⟩

/-- C4 (corrected): a row whose Ticker and Company Name are both missing is
excluded by the search filter only when the lowercased, stripped term is NOT
a substring of "nan" — pandas `astype(str)` renders missing values as the
string "nan", so terms like "nan" do match such rows (see the
counterexample).  The plain-character hypothesis keeps the statement within
the fragment where pandas `str.contains` (a regex search) coincides with
substring search. -/
theorem claim_C4_absent_no_match (df : DF) (t : String) (r : List Value)
    (hcols : df.cols ≠ [])
    (ht : t ≠ "")
    (_hplain : t.toList.all plainChar = true)
    (hnan : hasSubCL (stripCL (lowerCL t)) "nan".toList = false)
    (hT : ∀ i, df.colIdx "Ticker" = some i → r.getD i .na = .na)
    (hC : ∀ i, df.colIdx "Company Name" = some i → r.getD i .na = .na) :
    r ∉ (filter_by_search df t).rows := by
  unfold filter_by_search
  by_cases he : isEmptyDF df = true
  · rw [if_pos (Or.inl he)]
    rw [rows_eq_nil_of_empty hcols he]
    exact List.not_mem_nil r
  · rw [if_neg (by rw [not_or]; exact ⟨he, ht⟩)]
    intro hmem
    rw [List.mem_filter] at hmem
    obtain ⟨-, hpred⟩ := hmem
    have hTf : searchHit df.cols "Ticker" (stripCL (lowerCL t)) r = false := by
      unfold searchHit
      cases hci : cIdx df.cols "Ticker" with
      | none => rfl
      | some i =>
        show hasSubCL (stripCL (lowerCL t))
          ((pyStrCL (r.getD i Value.na)).map Char.toLower) = false
        rw [hT i hci]
        rw [show (pyStrCL Value.na).map Char.toLower = "nan".toList by rfl]
        exact hnan
    have hCf : searchHit df.cols "Company Name" (stripCL (lowerCL t)) r =
        false := by
      unfold searchHit
      cases hci : cIdx df.cols "Company Name" with
      | none => rfl
      | some i =>
        show hasSubCL (stripCL (lowerCL t))
          ((pyStrCL (r.getD i Value.na)).map Char.toLower) = false
        rw [hC i hci]
        rw [show (pyStrCL Value.na).map Char.toLower = "nan".toList by rfl]
        exact hnan
    rw [hTf, hCf] at hpred
    exact absurd hpred (by decide)

/-- C4 witness: a row with both fields missing is excluded for the search
term "ford". -/
theorem claim_C4_witness :
    [Value.na, Value.na] ∉
      (filter_by_search ⟨["Ticker", "Company Name"], [[Value.na, Value.na]]⟩
        "ford").rows :=
  claim_C4_absent_no_match _ _ _ (by decide) (by decide) (by decide)
    (by decide)
    (fun i h => by injection h with h; subst h; rfl)
    (fun i h => by injection h with h; subst h; rfl)

/-- C4 counterexample: with search term "nan" the all-missing row IS
included (pandas astype(str) renders NaN as "nan"), refuting "never
included". -/
theorem claim_C4_cex :
    filter_by_search ⟨["Ticker", "Company Name"], [[Value.na, Value.na]]⟩
        "nan" =
      ⟨["Ticker", "Company Name"], [[Value.na, Value.na]]⟩ ∧
    [Value.na, Value.na] ∈
      (filter_by_search ⟨["Ticker", "Company Name"], [[Value.na, Value.na]]⟩
        "nan").rows := by
  constructor
  · rfl
  · rw [show (filter_by_search ⟨["Ticker", "Company Name"],
      [[Value.na, Value.na]]⟩ "nan") =
      ⟨["Ticker", "Company Name"], [[Value.na, Value.na]]⟩ from rfl]
    exact List.mem_singleton.mpr rfl

/-- C8 (confirmed): the "Entering Top 2 Deciles" criterion selects exactly
the rows whose Current Decile is at most 2 and whose Previous Decile
exceeds 2. -/
theorem claim_C8_entering_top2 (df : DF) (ic ip : Nat)
    (hc : df.colIdx "Current Decile" = some ic)
    (hp : df.colIdx "Previous Decile" = some ip) :
    ∃ out, filter_by_decile_criteria df "Entering Top 2 Deciles" = .ok out ∧
      out.cols = df.cols ∧
      ∀ r, r ∈ out.rows ↔ r ∈ df.rows ∧
        (vleN (r.getD ic .na) 2 = true ∧ vgtN (r.getD ip .na) 2 = true) := by
  have hcolsne : df.cols ≠ [] :=
    List.ne_nil_of_mem (cIdx_some_mem (show cIdx df.cols _ = some ic from hc))
  unfold filter_by_decile_criteria
  cases he : isEmptyDF df
  · rw [if_neg (by simp [he])]
    rw [if_neg (by decide), if_pos rfl]
    rw [show df.colIdx "Current Decile" = some ic from hc,
      show df.colIdx "Previous Decile" = some ip from hp]
    refine ⟨_, rfl, rfl, ?_⟩
    intro r
    rw [List.mem_filter]
    constructor
    · intro ⟨h1, h2⟩
      exact ⟨h1, by
        rcases Bool.and_eq_true_iff.mp h2 with ⟨ha, hb⟩
        exact ⟨ha, hb⟩⟩
    · intro ⟨h1, h2, h3⟩
      exact ⟨h1, by rw [h2, h3]; rfl⟩
  · rw [if_pos rfl]
    have hrows : df.rows = [] := rows_eq_nil_of_empty hcolsne he
    refine ⟨df, rfl, rfl, ?_⟩
    intro r
    rw [hrows]
    simp

/-- C8 witness: the spec's example — (Current 2, Previous 3) is selected,
(Current 2, Previous 1) is not. -/
theorem claim_C8_witness :
    ∃ out, filter_by_decile_criteria
        ⟨["Current Decile", "Previous Decile"],
          [[Value.int 2, Value.int 3], [Value.int 2, Value.int 1]]⟩
        "Entering Top 2 Deciles" = .ok out ∧
      [Value.int 2, Value.int 3] ∈ out.rows ∧
      [Value.int 2, Value.int 1] ∉ out.rows := by
  obtain ⟨out, h1, -, h3⟩ := claim_C8_entering_top2
    ⟨["Current Decile", "Previous Decile"],
      [[Value.int 2, Value.int 3], [Value.int 2, Value.int 1]]⟩ 0 1 rfl rfl
  refine ⟨out, h1, (h3 _).mpr ⟨by decide, by decide, by decide⟩, ?_⟩
  intro hmem
  exact absurd ((h3 _).mp hmem).2.2 (by decide)

end Newtest3

namespace Newtest3

/-- Elements of a zipWith come from the two input lists. -/
theorem mem_zipWith_decomp {α β γ : Type} {f : α → β → γ} {as : List α}
    {bs : List β} {c : γ} (h : c ∈ List.zipWith f as bs) :
    ∃ a ∈ as, ∃ b ∈ bs, c = f a b := by
  induction as generalizing bs with
  | nil => simp at h
  | cons a as ih =>
    cases bs with
    | nil => simp at h
    | cons b bs =>
      rw [List.zipWith_cons_cons] at h
      rcases List.mem_cons.mp h with rfl | h
      · exact ⟨a, List.mem_cons_self _ _, b, List.mem_cons_self _ _, rfl⟩
      · obtain ⟨a1, ha1, b1, hb1, hc⟩ := ih h
        exact ⟨a1, List.mem_cons_of_mem _ ha1, b1,
          List.mem_cons_of_mem _ hb1, hc⟩

/-- Header standardization preserves rectangularity. -/
theorem WF_standardize {df : DF} (h : DF.WF df) :
    DF.WF (standardize_column_names df) := by
  intro r hr
  unfold standardize_column_names at hr ⊢
  simp only [List.length_map]
  exact h r hr

/-- Column assignment preserves rectangularity. -/
theorem WF_assignCol {df : DF} (n : String) (vs : List Value)
    (h : DF.WF df) : DF.WF (assignCol df n vs) := by
  unfold assignCol
  cases hci : df.colIdx n with
  | some i =>
    intro r hr
    obtain ⟨a, ha, b, -, rfl⟩ := mem_zipWith_decomp hr
    simpa [List.length_set] using h a ha
  | none =>
    intro r hr
    unfold appendCol at hr
    obtain ⟨a, ha, b, -, rfl⟩ := mem_zipWith_decomp hr
    simp only [appendCol, List.length_append, List.length_cons,
      List.length_nil]
    rw [h a ha]

/-- Assigning one column does not move lookups of other columns. -/
theorem colIdx_assign_ne (df : DF) (n : String) (vs : List Value) (c : String)
    (hne : c ≠ n) : (assignCol df n vs).colIdx c = df.colIdx c := by
  unfold assignCol
  cases hci : df.colIdx n with
  | some i => rfl
  | none =>
    show cIdx (df.cols ++ [n]) c = df.colIdx c
    cases hc : df.colIdx c with
    | some j => exact cIdx_append_of_some _ hc
    | none => exact cIdx_append_none hc hne

/-- When the column is new, assignment is an append on the right. -/
theorem assignCol_of_none {df : DF} {n : String} (vs : List Value)
    (h : df.colIdx n = none) : assignCol df n vs = appendCol df n vs := by
  unfold assignCol
  rw [h]

/-- C5 (corrected): after enrichment, if no column standardizes to "Decile
Change" and both decile columns are present, every output row's Decile
Change cell is the elementwise difference of its deciles; if a decile column
is missing (and none standardizes to "Decile Change"), the output has no
Decile Change column.  The original claim's premise "the input has no
'Decile Change' column" must be read after header standardization: a raw
header like "change" standardizes to "Decile Change" and suppresses the
derivation (see the counterexample). -/
theorem claim_C5_decile_change :
    (∀ (df : DF) (region : String) (fd : Option PDate) (now : PDate)
      (out : DF),
      DF.WF df →
      (standardize_column_names df).colIdx "Decile Change" = none →
      ((standardize_column_names df).colIdx "Current Decile").isSome →
      ((standardize_column_names df).colIdx "Previous Decile").isSome →
      process_file_data df region fd now = some out →
      ∃ cur prev, out.colVals "Current Decile" = some cur ∧
        out.colVals "Previous Decile" = some prev ∧
        out.colVals "Decile Change" = some (List.zipWith subV cur prev)) ∧
    (∀ (df : DF) (region : String) (fd : Option PDate) (now : PDate)
      (out : DF),
      (standardize_column_names df).colIdx "Decile Change" = none →
      ((standardize_column_names df).colIdx "Current Decile" = none ∨
        (standardize_column_names df).colIdx "Previous Decile" = none) →
      process_file_data df region fd now = some out →
      out.colIdx "Decile Change" = none) := by
  constructor
  · intro df region fd now out hwf hDC hCur hPrev hout
    obtain ⟨ic, hic⟩ := Option.isSome_iff_exists.mp hCur
    obtain ⟨ip, hip⟩ := Option.isSome_iff_exists.mp hPrev
    unfold process_file_data at hout
    by_cases he : isEmptyDF df = true
    · rw [if_pos he] at hout; exact Option.noConfusion hout
    rw [if_neg he] at hout
    have hEDC : (enriched df region (.date (fd.getD now))).colIdx
        "Decile Change" = none := by
      unfold enriched withFileDate withRegion
      rw [colIdx_assign_ne _ _ _ _ (by decide),
        colIdx_assign_ne _ _ _ _ (by decide)]
      exact hDC
    have hECur : (enriched df region (.date (fd.getD now))).colIdx
        "Current Decile" = some ic := by
      unfold enriched withFileDate withRegion
      rw [colIdx_assign_ne _ _ _ _ (by decide),
        colIdx_assign_ne _ _ _ _ (by decide)]
      exact hic
    have hEPrev : (enriched df region (.date (fd.getD now))).colIdx
        "Previous Decile" = some ip := by
      unfold enriched withFileDate withRegion
      rw [colIdx_assign_ne _ _ _ _ (by decide),
        colIdx_assign_ne _ _ _ _ (by decide)]
      exact hip
    rw [hEDC, hECur, hEPrev] at hout
    have hwfE : DF.WF (enriched df region (.date (fd.getD now))) := by
      unfold enriched withFileDate withRegion
      exact WF_assignCol _ _ (WF_assignCol _ _ (WF_standardize hwf))
    set E := enriched df region (.date (fd.getD now)) with hE
    injection hout with hout
    subst hout
    rw [assignCol_of_none _ hEDC]
    have hiclt : ic < E.cols.length := cIdx_lt_length hECur
    have hiplt : ip < E.cols.length := cIdx_lt_length hEPrev
    have hrows : (appendCol E "Decile Change"
        (E.rows.map (fun r => subV (r.getD ic .na) (r.getD ip .na)))).rows =
        E.rows.map (fun r => r ++ [subV (r.getD ic .na) (r.getD ip .na)]) := by
      unfold appendCol
      rw [List.zipWith_map_right]
      rw [List.zipWith_same]
    refine ⟨E.rows.map (fun r => r.getD ic .na),
      E.rows.map (fun r => r.getD ip .na), ?_, ?_, ?_⟩
    · unfold DF.colVals
      rw [show (appendCol E "Decile Change" (E.rows.map
          (fun r => subV (r.getD ic .na) (r.getD ip .na)))).colIdx
          "Current Decile" = some ic from cIdx_append_of_some _ hECur]
      rw [Option.map_some']
      rw [hrows, List.map_map]
      congr 1
      apply List.map_congr_left
      intro r hr
      exact List.getD_append _ _ _ _ (by rw [hwfE r hr]; exact hiclt)
    · unfold DF.colVals
      rw [show (appendCol E "Decile Change" (E.rows.map
          (fun r => subV (r.getD ic .na) (r.getD ip .na)))).colIdx
          "Previous Decile" = some ip from cIdx_append_of_some _ hEPrev]
      rw [Option.map_some']
      rw [hrows, List.map_map]
      congr 1
      apply List.map_congr_left
      intro r hr
      exact List.getD_append _ _ _ _ (by rw [hwfE r hr]; exact hiplt)
    · unfold DF.colVals
      rw [show (appendCol E "Decile Change" (E.rows.map
          (fun r => subV (r.getD ic .na) (r.getD ip .na)))).colIdx
          "Decile Change" = some E.cols.length from cIdx_append_self hEDC]
      rw [Option.map_some']
      rw [hrows, List.map_map]
      rw [List.zipWith_map_right, List.zipWith_map_left, List.zipWith_same]
      congr 1
      apply List.map_congr_left
      intro r hr
      simp only [Function.comp_apply]
      rw [← hwfE r hr]
      simp [List.getD_append_right]
  · intro df region fd now out hDC hCP hout
    unfold process_file_data at hout
    by_cases he : isEmptyDF df = true
    · rw [if_pos he] at hout; exact Option.noConfusion hout
    rw [if_neg he] at hout
    have hEDC : (enriched df region (.date (fd.getD now))).colIdx
        "Decile Change" = none := by
      unfold enriched withFileDate withRegion
      rw [colIdx_assign_ne _ _ _ _ (by decide),
        colIdx_assign_ne _ _ _ _ (by decide)]
      exact hDC
    have hECP : (enriched df region (.date (fd.getD now))).colIdx
        "Current Decile" = none ∨
        (enriched df region (.date (fd.getD now))).colIdx
        "Previous Decile" = none := by
      rcases hCP with h | h
      · left
        unfold enriched withFileDate withRegion
        rw [colIdx_assign_ne _ _ _ _ (by decide),
          colIdx_assign_ne _ _ _ _ (by decide)]
        exact h
      · right
        unfold enriched withFileDate withRegion
        rw [colIdx_assign_ne _ _ _ _ (by decide),
          colIdx_assign_ne _ _ _ _ (by decide)]
        exact h
    rw [hEDC] at hout
    rcases hECP with h | h
    · rw [h] at hout
      cases hp : (enriched df region (.date (fd.getD now))).colIdx
          "Previous Decile" <;> rw [hp] at hout <;>
        · injection hout with hout; subst hout; exact hEDC
    · rw [h] at hout
      cases hc : (enriched df region (.date (fd.getD now))).colIdx
          "Current Decile" <;> rw [hc] at hout <;>
        · injection hout with hout; subst hout; exact hEDC

end Newtest3

namespace Newtest3

/-- C5 witness: the spec's example — Current 2, Previous 5 derives Decile
Change -3. -/
theorem claim_C5_witness :
    (∃ cur prev,
      DF.colVals ⟨["Current Decile", "Previous Decile", "Region", "File Date",
          "Decile Change"],
        [[Value.int 2, Value.int 5, Value.str "US", Value.date ⟨2025, 1, 1⟩,
          Value.int (-3)]]⟩ "Current Decile" = some cur ∧
      DF.colVals ⟨["Current Decile", "Previous Decile", "Region", "File Date",
          "Decile Change"],
        [[Value.int 2, Value.int 5, Value.str "US", Value.date ⟨2025, 1, 1⟩,
          Value.int (-3)]]⟩ "Previous Decile" = some prev ∧
      DF.colVals ⟨["Current Decile", "Previous Decile", "Region", "File Date",
          "Decile Change"],
        [[Value.int 2, Value.int 5, Value.str "US", Value.date ⟨2025, 1, 1⟩,
          Value.int (-3)]]⟩ "Decile Change" =
        some (List.zipWith subV cur prev)) ∧
    DF.colVals ⟨["Current Decile", "Previous Decile", "Region", "File Date",
        "Decile Change"],
      [[Value.int 2, Value.int 5, Value.str "US", Value.date ⟨2025, 1, 1⟩,
        Value.int (-3)]]⟩ "Decile Change" = some [Value.int (-3)] :=
  ⟨claim_C5_decile_change.1
      ⟨["Current Decile", "Previous Decile"], [[Value.int 2, Value.int 5]]⟩
      "US" none ⟨2025, 1, 1⟩ _
      (by intro r hr; rw [List.mem_singleton] at hr; subst hr; rfl)
      (by decide) (by decide) (by decide) (by decide),
    by decide⟩

/-- C5 counterexample: an input with headers Current Decile, Previous Decile
and "change" has no column literally named "Decile Change", yet enrichment
keeps the supplied change value 7 instead of deriving 2 - 5 = -3, because
"change" standardizes to "Decile Change" first. -/
theorem claim_C5_cex :
    "Decile Change" ∉ ["Current Decile", "Previous Decile", "change"] ∧
    "Current Decile" ∈ ["Current Decile", "Previous Decile", "change"] ∧
    "Previous Decile" ∈ ["Current Decile", "Previous Decile", "change"] ∧
    process_file_data
        ⟨["Current Decile", "Previous Decile", "change"],
          [[Value.int 2, Value.int 5, Value.int 7]]⟩ "US" none ⟨2025, 1, 1⟩ =
      some ⟨["Current Decile", "Previous Decile", "Decile Change", "Region",
          "File Date"],
        [[Value.int 2, Value.int 5, Value.int 7, Value.str "US",
          Value.date ⟨2025, 1, 1⟩]]⟩ ∧
    subV (Value.int 2) (Value.int 5) = Value.int (-3) ∧
    Value.int 7 ≠ Value.int (-3) := by decide

end Newtest3

namespace Newtest3

/-- A prefix with no 8-digit window that ends in a non-digit cannot host or
straddle the leftmost window: the scan continues past it. -/
theorem findWin8_append (pre s : List Char) (h8 : hasWin8 pre = false)
    (hlast : ∀ c, pre.getLast? = some c → isDigitC c = false) :
    findWin8 (pre ++ s) = findWin8 s := by
  induction pre with
  | nil => rfl
  | cons c pre ih =>
    have hcondpre : ¬((((c :: pre).take 8).length == 8 &&
        ((c :: pre).take 8).all isDigitC) = true) := by
      intro hcond
      unfold hasWin8 at h8
      rw [findWin8, if_pos hcond] at h8
      simp at h8
    have h8' : hasWin8 pre = false := by
      unfold hasWin8 at h8 ⊢
      rw [findWin8, if_neg hcondpre] at h8
      exact h8
    have hlast' : ∀ a, pre.getLast? = some a → isDigitC a = false := by
      intro a ha
      apply hlast
      cases pre with
      | nil => simp at ha
      | cons b bs => rw [List.getLast?_cons_cons]; exact ha
    have hne : (c :: pre) ≠ [] := by simp
    have hcond : ¬(((c :: (pre ++ s)).take 8).length == 8 &&
        ((c :: (pre ++ s)).take 8).all isDigitC) = true := by
      intro hcond
      rcases Bool.and_eq_true_iff.mp hcond with ⟨hlen, hall⟩
      by_cases hge : 8 ≤ (c :: pre).length
      · have heq : (c :: (pre ++ s)).take 8 = (c :: pre).take 8 := by
          rw [← List.cons_append]
          exact List.take_append_of_le_length hge
        rw [heq] at hlen hall
        exact hcondpre (Bool.and_eq_true_iff.mpr ⟨hlen, hall⟩)
      · have hle : (c :: pre).length ≤ 8 := Nat.le_of_not_lt
          (fun hcontra => hge (Nat.le_of_lt hcontra))
        have heq : (c :: (pre ++ s)).take 8 =
            (c :: pre) ++ s.take (8 - (c :: pre).length) := by
          rw [← List.cons_append, List.take_append_eq_append_take,
            List.take_of_length_le hle]
        have hmem : (c :: pre).getLast hne ∈ (c :: (pre ++ s)).take 8 := by
          rw [heq]
          exact List.mem_append_left _ (List.getLast_mem hne)
        have hdig : isDigitC ((c :: pre).getLast hne) = true := by
          rw [List.all_eq_true] at hall
          exact hall _ hmem
        have hnod : isDigitC ((c :: pre).getLast hne) = false :=
          hlast _ (List.getLast?_eq_getLast _ hne)
        rw [hnod] at hdig
        exact Bool.false_ne_true hdig
    rw [List.cons_append, findWin8, if_neg hcond]
    exact ih h8' hlast'

/-- At the start of a run of 8 or more digits the window test fires, taking
the first 8 digits of the run. -/
theorem findWin8_run (run post : List Char) (hd : run.all isDigitC = true)
    (hl : 8 ≤ run.length) : findWin8 (run ++ post) = some (run.take 8) := by
  cases run with
  | nil => simp at hl
  | cons c rest =>
    have heq : (c :: (rest ++ post)).take 8 = (c :: rest).take 8 := by
      rw [← List.cons_append]
      exact List.take_append_of_le_length hl
    have hlen : (((c :: rest).take 8).length == 8) = true := by
      rw [List.length_take, Nat.min_eq_left hl]
      rfl
    have hall : ((c :: rest).take 8).all isDigitC = true := by
      rw [List.all_eq_true] at hd ⊢
      intro x hx
      exact hd x (List.mem_of_mem_take hx)
    rw [List.cons_append, findWin8, heq]
    rw [if_pos (Bool.and_eq_true_iff.mpr ⟨hlen, hall⟩)]

/-- Unfolding step 3 once the leftmost window is known. -/
theorem p3Extract_eq (fn : String) (w : List Char)
    (hw : findWin8 fn.toList = some w) :
    p3Extract fn =
      if isValidDate (natOfDigits (w.take 4)) (natOfDigits ((w.drop 4).take 2))
          (natOfDigits ((w.drop 6).take 2)) then
        some ⟨natOfDigits (w.take 4), natOfDigits ((w.drop 4).take 2),
          natOfDigits ((w.drop 6).take 2)⟩
      else none := by
  unfold p3Extract
  rw [hw]

/-- When patterns 1 and 2 fall through, extraction is exactly step 3. -/
theorem extract_date_p3 (fn : String) (h1 : p1Extract fn = none)
    (h2 : p2Extract fn = none) :
    extract_date_from_filename fn = p3Extract fn := by
  unfold extract_date_from_filename
  rw [h1, h2]

/-- C10 (confirmed): when neither the month-name rule nor the YYYY-MM-DD
rule produces a date, the YYYYMMDD rule reads the first 8 digits of the
leftmost run of 8 or more consecutive digits (even as the prefix of a longer
number), returns them as YYYY|MM|DD when calendar-valid, and otherwise
returns no date — no later digit window is tried. -/
theorem claim_C10_yyyymmdd_window (fn : String) (pre run post : List Char)
    (y m d : Nat)
    (h1 : p1Extract fn = none) (h2 : p2Extract fn = none)
    (hsplit : fn.toList = pre ++ run ++ post)
    (hdig : run.all isDigitC = true) (hlen : 8 ≤ run.length)
    (hpre : hasWin8 pre = false)
    (hplast : ∀ c, pre.getLast? = some c → isDigitC c = false)
    (hy : y = natOfDigits (run.take 4))
    (hm : m = natOfDigits ((run.drop 4).take 2))
    (hd2 : d = natOfDigits ((run.drop 6).take 2)) :
    extract_date_from_filename fn =
      if isValidDate y m d then some ⟨y, m, d⟩ else none := by
  have hwin : findWin8 fn.toList = some (run.take 8) := by
    rw [hsplit, List.append_assoc, findWin8_append pre _ hpre hplast]
    exact findWin8_run run post hdig hlen
  have e1 : (run.take 8).take 4 = run.take 4 := by
    simp [List.take_take]
  have e2 : ((run.take 8).drop 4).take 2 = (run.drop 4).take 2 := by
    simp [List.drop_take, List.take_take]
  have e3 : ((run.take 8).drop 6).take 2 = (run.drop 6).take 2 := by
    simp [List.drop_take, List.take_take]
  rw [extract_date_p3 fn h1 h2, p3Extract_eq fn _ hwin, e1, e2, e3, hy, hm,
    hd2]

/-- C10 witness: "report_202503115555.csv" — the 12-digit run starts with
the window 20250311, which is a valid date and is returned even though the
run continues. -/
theorem claim_C10_witness :
    p1Extract "report_202503115555.csv" = none ∧
    p2Extract "report_202503115555.csv" = none ∧
    hasWin8 "report_".toList = false ∧
    extract_date_from_filename "report_202503115555.csv" =
      (if isValidDate 2025 3 11 then some ⟨2025, 3, 11⟩ else none) ∧
    extract_date_from_filename "report_202503115555.csv" =
      some ⟨2025, 3, 11⟩ :=
  ⟨by decide, by decide, by decide,
    claim_C10_yyyymmdd_window "report_202503115555.csv" "report_".toList
      "202503115555".toList ".csv".toList 2025 3 11 (by decide) (by decide)
      (by decide) (by decide) (by decide) (by decide)
      (fun c h => by injection h with h; subst h; decide)
      (by decide) (by decide) (by decide),
    by decide⟩

end Newtest3

namespace Newtest3

/-- Overwriting a position with its own value is a no-op. -/
theorem set_getD_self {α : Type} (r : List α) (i : Nat) (d : α) :
    r.set i (r.getD i d) = r := by
  induction r generalizing i with
  | nil => rfl
  | cons a as ih =>
    cases i with
    | zero => rfl
    | succ n =>
      rw [List.getD_cons_succ, List.set_cons_succ, ih]

/-- Row filtering preserves the FilterReady invariant. -/
theorem FilterReady_filter {df : DF} (h : FilterReady df)
    (p : List Value → Bool) : FilterReady ⟨df.cols, df.rows.filter p⟩ := by
  obtain ⟨h1, h2, h3, h4, h5⟩ := h
  exact ⟨h1, h2, h3,
    fun i hi r hr => h4 i hi r (List.mem_of_mem_filter hr),
    fun i hi r hr => h5 i hi r (List.mem_of_mem_filter hr)⟩

/-- Passing a frame through unchanged equals filtering with a predicate that
holds on all its rows. -/
theorem ok_df_eq_filter_true (df : DF) (p : List Value → Bool)
    (hp : ∀ r ∈ df.rows, p r = true) :
    (Except.ok df : Except String DF) = .ok ⟨df.cols, df.rows.filter p⟩ := by
  rw [List.filter_eq_self.mpr hp]

/-- On an empty row list every filter outcome is the frame itself. -/
theorem ok_df_eq_filter_nil (df : DF) (p : List Value → Bool)
    (h : df.rows = []) :
    (Except.ok df : Except String DF) = .ok ⟨df.cols, df.rows.filter p⟩ := by
  obtain ⟨cols, rows⟩ := df
  simp only at h
  subst h
  rfl

/-- Under FilterReady, every filter step succeeds and acts as a pure row
filter with its step predicate. -/
theorem applyFStep_eq (df : DF) (s : FStep) (h : FilterReady df) :
    applyFStep df s = .ok ⟨df.cols, df.rows.filter (stepPred df.cols s)⟩ := by
  have hcne : df.cols ≠ [] := List.ne_nil_of_mem h.1
  cases s with
  | region rg =>
    show Except.ok (filter_by_region df rg) = _
    unfold filter_by_region
    by_cases hrg : rg = "All Regions"
    · rw [if_pos (Or.inr hrg)]
      apply ok_df_eq_filter_true
      intro r hr
      simp [stepPred, hrg]
    · by_cases he : isEmptyDF df = true
      · rw [if_pos (Or.inl he)]
        exact ok_df_eq_filter_nil df _ (rows_eq_nil_of_empty hcne he)
      · rw [if_neg (by rw [not_or]; exact ⟨he, hrg⟩)]
        cases hci : df.colIdx "Region" with
        | none =>
          apply ok_df_eq_filter_true
          intro r hr
          simp [stepPred, hrg, show cIdx df.cols "Region" = none from hci]
        | some i =>
          exact congrArg Except.ok (congrArg (DF.mk df.cols)
            (List.filter_congr (fun r hr => by
              simp [stepPred, hrg,
                show cIdx df.cols "Region" = some i from hci])))
  | sector sc =>
    show Except.ok (filter_by_sector df sc) = _
    unfold filter_by_sector
    by_cases hsc : sc = "All Sectors"
    · rw [if_pos (Or.inr hsc)]
      apply ok_df_eq_filter_true
      intro r hr
      simp [stepPred, hsc]
    · by_cases he : isEmptyDF df = true
      · rw [if_pos (Or.inl he)]
        exact ok_df_eq_filter_nil df _ (rows_eq_nil_of_empty hcne he)
      · rw [if_neg (by rw [not_or]; exact ⟨he, hsc⟩)]
        cases hci : df.colIdx "Sector" with
        | none =>
          apply ok_df_eq_filter_true
          intro r hr
          simp [stepPred, hsc, show cIdx df.cols "Sector" = none from hci]
        | some i =>
          exact congrArg Except.ok (congrArg (DF.mk df.cols)
            (List.filter_congr (fun r hr => by
              simp [stepPred, hsc,
                show cIdx df.cols "Sector" = some i from hci])))
  | dateRange a b =>
    show Except.ok (filter_by_date_range df a b) = _
    unfold filter_by_date_range
    by_cases he : isEmptyDF df = true
    · rw [if_pos he]
      exact ok_df_eq_filter_nil df _ (rows_eq_nil_of_empty hcne he)
    · rw [if_neg he]
      cases hci : df.colIdx "File Date" with
      | none =>
        apply ok_df_eq_filter_true
        intro r hr
        simp [stepPred, show cIdx df.cols "File Date" = none from hci]
      | some i =>
        show Except.ok (DF.mk df.cols
            ((df.rows.map (fun r => r.set i (toDatetimeV (r.getD i .na)))).filter
              (fun r => vdGe (r.getD i .na) a && vdLe (r.getD i .na) b))) =
          Except.ok ⟨df.cols,
            df.rows.filter (stepPred df.cols (FStep.dateRange a b))⟩
        have hmap : df.rows.map
            (fun r => r.set i (toDatetimeV (r.getD i .na))) = df.rows := by
          have hid : ∀ r ∈ df.rows,
              r.set i (toDatetimeV (r.getD i .na)) = r := by
            intro r hr
            rw [h.2.2.2.1 i hci r hr]
            exact set_getD_self r i .na
          calc df.rows.map (fun r => r.set i (toDatetimeV (r.getD i .na)))
              = df.rows.map id := List.map_congr_left hid
            _ = df.rows := List.map_id _
        rw [hmap]
        exact congrArg Except.ok (congrArg (DF.mk df.cols)
          (List.filter_congr (fun r hr => by
            simp [stepPred, show cIdx df.cols "File Date" = some i from hci])))
  | decile c =>
    show filter_by_decile_criteria df c = _
    unfold filter_by_decile_criteria
    obtain ⟨ic, hic⟩ := Option.isSome_iff_exists.mp (cIdx_isSome_of_mem h.1)
    obtain ⟨ip, hip⟩ := Option.isSome_iff_exists.mp (cIdx_isSome_of_mem h.2.1)
    obtain ⟨idc, hidc⟩ :=
      Option.isSome_iff_exists.mp (cIdx_isSome_of_mem h.2.2.1)
    by_cases he : isEmptyDF df = true
    · rw [if_pos he]
      exact ok_df_eq_filter_nil df _ (rows_eq_nil_of_empty hcne he)
    · rw [if_neg he]
      by_cases h1 : c = "All Decile Movements"
      · rw [if_pos h1]
        apply ok_df_eq_filter_true
        intro r hr
        simp [stepPred, h1]
      · rw [if_neg h1]
        by_cases h2 : c = "Entering Top 2 Deciles"
        · rw [if_pos h2,
            show df.colIdx "Current Decile" = some ic from hic,
            show df.colIdx "Previous Decile" = some ip from hip]
          exact congrArg Except.ok (congrArg (DF.mk df.cols)
            (List.filter_congr (fun r hr => by
              simp [stepPred, h1, h2,
                show cIdx df.cols "Current Decile" = some ic from hic,
                show cIdx df.cols "Previous Decile" = some ip from hip])))
        · rw [if_neg h2]
          by_cases h3 : c = "Entering Bottom 2 Deciles"
          · rw [if_pos h3,
              show df.colIdx "Current Decile" = some ic from hic,
              show df.colIdx "Previous Decile" = some ip from hip]
            exact congrArg Except.ok (congrArg (DF.mk df.cols)
              (List.filter_congr (fun r hr => by
                simp [stepPred, h1, h2, h3,
                  show cIdx df.cols "Current Decile" = some ic from hic,
                  show cIdx df.cols "Previous Decile" = some ip from hip])))
          · rw [if_neg h3]
            by_cases h4 : c = "Moving +3 Deciles"
            · rw [if_pos h4,
                show df.colIdx "Decile Change" = some idc from hidc]
              exact congrArg Except.ok (congrArg (DF.mk df.cols)
                (List.filter_congr (fun r hr => by
                  simp [stepPred, h1, h2, h3, h4,
                    show cIdx df.cols "Decile Change" = some idc from hidc])))
            · rw [if_neg h4]
              by_cases h5 : c = "Moving +5 Deciles"
              · rw [if_pos h5,
                  show df.colIdx "Decile Change" = some idc from hidc]
                exact congrArg Except.ok (congrArg (DF.mk df.cols)
                  (List.filter_congr (fun r hr => by
                    simp [stepPred, h1, h2, h3, h4, h5,
                      show cIdx df.cols "Decile Change" = some idc
                        from hidc])))
              · rw [if_neg h5]
                apply ok_df_eq_filter_true
                intro r hr
                simp [stepPred, h1, h2, h3, h4, h5]
  | search t =>
    show Except.ok (filter_by_search df t) = _
    unfold filter_by_search
    by_cases ht : t = ""
    · rw [if_pos (Or.inr ht)]
      apply ok_df_eq_filter_true
      intro r hr
      simp [stepPred, ht]
    · by_cases he : isEmptyDF df = true
      · rw [if_pos (Or.inl he)]
        exact ok_df_eq_filter_nil df _ (rows_eq_nil_of_empty hcne he)
      · rw [if_neg (by rw [not_or]; exact ⟨he, ht⟩)]
        exact congrArg Except.ok (congrArg (DF.mk df.cols)
          (List.filter_congr (fun r hr => by simp [stepPred, ht])))

end Newtest3

namespace Newtest3

/-- Under FilterReady, a whole sequence of filter steps succeeds and keeps
exactly the rows satisfying all the step predicates. -/
theorem applyFilterSeq_eq (l : List FStep) (df : DF) (h : FilterReady df) :
    applyFilterSeq l df =
      .ok ⟨df.cols, df.rows.filter
        (fun r => l.all (fun s => stepPred df.cols s r))⟩ := by
  induction l generalizing df with
  | nil =>
    show Except.ok df = _
    apply ok_df_eq_filter_true
    intro r hr
    simp
  | cons s l ih =>
    rw [applyFilterSeq, applyFStep_eq df s h]
    show applyFilterSeq l ⟨df.cols, df.rows.filter (stepPred df.cols s)⟩ =
      Except.ok ⟨df.cols, df.rows.filter
        (fun r => (s :: l).all (fun s => stepPred df.cols s r))⟩
    rw [ih ⟨df.cols, df.rows.filter (stepPred df.cols s)⟩
      (FilterReady_filter h _)]
    refine congrArg Except.ok (congrArg (DF.mk df.cols) ?_)
    rw [List.filter_filter]
    apply List.filter_congr
    intro r hr
    rw [List.all_cons, Bool.and_comm]

/-- A Bool `all` over a list is invariant under permutation. -/
theorem all_perm_inv {l1 l2 : List FStep} (h : l1.Perm l2)
    (f : FStep → Bool) : l1.all f = l2.all f := by
  rw [Bool.eq_iff_iff, List.all_eq_true, List.all_eq_true]
  constructor
  · intro H x hx
    exact H x (h.mem_iff.mpr hx)
  · intro H x hx
    exact H x (h.mem_iff.mp hx)

/-- C6 (corrected): order-independence holds on the fragment where no
filter can raise — the frame contains the Current Decile, Previous Decile
and Decile Change columns, its File Date cells (if the column exists) are
fixed points of to_datetime (Timestamps or NaT), its decile cells are
numeric or missing (string cells make the program's comparisons raise
TypeError), and every search term consists of plain characters (invalid
regex terms such as "c++" make the program's str.contains raise re.error).
There, any two permutations of a sequence of filter steps give the same
result.  Outside this fragment order-independence fails, because a raising
step is skipped when an earlier filter has emptied the frame: the
counterexample shows the decile criterion KeyError case. -/
theorem claim_C6_order_independent (df : DF) (l1 l2 : List FStep)
    (hdf : FilterReady df) (_hterms : l1.all stepOK = true)
    (hperm : l1.Perm l2) :
    applyFilterSeq l1 df = applyFilterSeq l2 df := by
  rw [applyFilterSeq_eq l1 df hdf, applyFilterSeq_eq l2 df hdf]
  refine congrArg Except.ok (congrArg (DF.mk df.cols) ?_)
  apply List.filter_congr
  intro r hr
  exact all_perm_inv hperm _

/-- C6 witness: the five filters applied to a ready frame, with the decile
step moved from last to first. -/
theorem claim_C6_witness :
    applyFilterSeq
      ([FStep.region "US", FStep.sector "All Sectors",
        FStep.dateRange ⟨2025, 1, 1⟩ ⟨2025, 12, 31⟩, FStep.search ""] ++
        [FStep.decile "Entering Top 2 Deciles"])
      ⟨["Current Decile", "Previous Decile", "Decile Change", "File Date",
        "Region"],
        [[Value.int 1, Value.int 3, Value.int (-2),
          Value.date ⟨2025, 3, 11⟩, Value.str "US"]]⟩ =
    applyFilterSeq
      (FStep.decile "Entering Top 2 Deciles" ::
        [FStep.region "US", FStep.sector "All Sectors",
          FStep.dateRange ⟨2025, 1, 1⟩ ⟨2025, 12, 31⟩, FStep.search ""])
      ⟨["Current Decile", "Previous Decile", "Decile Change", "File Date",
        "Region"],
        [[Value.int 1, Value.int 3, Value.int (-2),
          Value.date ⟨2025, 3, 11⟩, Value.str "US"]]⟩ :=
  claim_C6_order_independent _ _ _
    ⟨by decide, by decide, by decide,
      fun i hi => by
        injection hi with hi
        subst hi
        intro r hr
        rw [List.mem_singleton] at hr
        subst hr
        rfl,
      fun i hi => by
        rcases hi with hi | hi | hi <;>
          (injection hi with hi; subst hi; intro r hr;
            rw [List.mem_singleton] at hr; subst hr; rfl)⟩
    (by decide)
    (List.perm_append_singleton _ _)

/-- C6 counterexample: with the decile columns absent, running the decile
step last (after the region filter empties the frame) succeeds, while
running it first raises — permutations disagree, refuting unconditional
order-independence. -/
theorem claim_C6_cex :
    ([FStep.region "US", FStep.sector "All Sectors",
      FStep.dateRange ⟨2025, 1, 1⟩ ⟨2025, 12, 31⟩, FStep.search ""] ++
      [FStep.decile "Entering Top 2 Deciles"]).Perm
      (FStep.decile "Entering Top 2 Deciles" ::
        [FStep.region "US", FStep.sector "All Sectors",
          FStep.dateRange ⟨2025, 1, 1⟩ ⟨2025, 12, 31⟩, FStep.search ""]) ∧
    applyFilterSeq
      ([FStep.region "US", FStep.sector "All Sectors",
        FStep.dateRange ⟨2025, 1, 1⟩ ⟨2025, 12, 31⟩, FStep.search ""] ++
        [FStep.decile "Entering Top 2 Deciles"])
      ⟨["Region"], [[Value.str "X"]]⟩ = .ok ⟨["Region"], []⟩ ∧
    applyFilterSeq
      (FStep.decile "Entering Top 2 Deciles" ::
        [FStep.region "US", FStep.sector "All Sectors",
          FStep.dateRange ⟨2025, 1, 1⟩ ⟨2025, 12, 31⟩, FStep.search ""])
      ⟨["Region"], [[Value.str "X"]]⟩ = .error "KeyError" :=
  ⟨List.perm_append_singleton _ _, rfl, rfl⟩

end Newtest3
